import Mathlib

/-!
# bombardier: counting dial layer and TLS configuration builder

A shallow embedding of `dialer.go` and `client_cert.go`.

* Go's `error` is `Option E` for an arbitrary type `E`; `none` is `nil`.
* A `*int64` is the address of an allocated cell of a counter memory; the
  methods of the wrappers are state-passing functions over that memory.
* `int64` arithmetic is two's complement: every stored sum is reduced to the
  range `[-2^63, 2^63)`.
* The operations of the inner connections, the dial primitives and the
  key-pair loader are library code: they are parameters of the model, and
  they do not touch the counter memory.
-/

/-! ## int64 and the counter memory -/

/-- Smallest value of Go's `int64`. -/
def minInt64 : Int := -9223372036854775808

/-- Largest value of Go's `int64`. -/
def maxInt64 : Int := 9223372036854775807

/-- Membership in the range of `int64`. -/
def isInt64 (x : Int) : Prop := minInt64 ≤ x ∧ x ≤ maxInt64

instance (x : Int) : Decidable (isInt64 x) :=
  inferInstanceAs (Decidable (minInt64 ≤ x ∧ x ≤ maxInt64))

/-- Two's-complement reduction of an integer to the range of `int64`
(`2^63 = 9223372036854775808`, `2^64 = 18446744073709551616`). -/
def wrapInt64 (x : Int) : Int :=
  (x + 9223372036854775808) % 18446744073709551616 - 9223372036854775808

/-- Go's conversion `int64(n)`. -/
def int64 (n : Int) : Int := wrapInt64 n

/-- Go's `len(b)` of a byte slice, as an `int`. -/
def len (b : List UInt8) : Int := (b.length : Int)

/-- The address of an allocated `int64` cell (a non-nil `*int64`). -/
abbrev Ptr := Nat

/-- The contents of the `int64` cells, by address. -/
abbrev Memory := Ptr → Int

/-- Go's `atomic.AddInt64(addr, delta)`: the cell at `addr` receives the
`int64` sum of its content and `delta`; no other cell changes. -/
def atomic.AddInt64 (mem : Memory) (addr : Ptr) (delta : Int) : Memory :=
  fun p => if p = addr then wrapInt64 (mem p + delta) else mem p

/-! ## dialer.go: the wrapped connections -/

/-- The two methods of Go's `net.Conn` that `countingConn` intercepts; each
returns the `(n, err)` of one call on the buffer. -/
structure net.Conn (E : Type) where
  Read : List UInt8 → Int × Option E
  Write : List UInt8 → Int × Option E

/-- The struct `countingConn` of dialer.go:12. -/
structure countingConn (E : Type) where
  Conn : net.Conn E
  bytesRead : Ptr
  bytesWritten : Ptr

/-- The method `(*countingConn).Read` of dialer.go:17. -/
def countingConn.Read {E : Type} (cc : countingConn E) (b : List UInt8)
    (mem : Memory) : (Int × Option E) × Memory :=
  match cc.Conn.Read b with
  | (n, none) => ((n, none), atomic.AddInt64 mem cc.bytesRead (int64 n))
  | (n, some err) => ((n, some err), mem)

/-- The method `(*countingConn).Write` of dialer.go:27. -/
def countingConn.Write {E : Type} (cc : countingConn E) (b : List UInt8)
    (mem : Memory) : (Int × Option E) × Memory :=
  match cc.Conn.Write b with
  | (n, none) => ((n, none), atomic.AddInt64 mem cc.bytesWritten (int64 n))
  | (n, some err) => ((n, some err), mem)

/-- The two methods of `quic.EarlyConnection` that `countingQuicConn`
intercepts. -/
structure quic.EarlyConnection (E : Type) where
  ReceiveMessage : Unit → List UInt8 × Option E
  SendMessage : List UInt8 → Option E

/-- The struct `countingQuicConn` of dialer.go:37. -/
structure countingQuicConn (E : Type) where
  EarlyConnection : quic.EarlyConnection E
  bytesRead : Ptr
  bytesWritten : Ptr

/-- The method `(*countingQuicConn).ReceiveMessage` of dialer.go:42. -/
def countingQuicConn.ReceiveMessage {E : Type} (cqc : countingQuicConn E)
    (mem : Memory) : (List UInt8 × Option E) × Memory :=
  match cqc.EarlyConnection.ReceiveMessage () with
  | (b, none) => ((b, none), atomic.AddInt64 mem cqc.bytesRead (int64 (len b)))
  | (b, some err) => ((b, some err), mem)

/-- The method `(*countingQuicConn).SendMessage` of dialer.go:50. -/
def countingQuicConn.SendMessage {E : Type} (cqc : countingQuicConn E)
    (b : List UInt8) (mem : Memory) : Option E × Memory :=
  match cqc.EarlyConnection.SendMessage b with
  | none => (none, atomic.AddInt64 mem cqc.bytesWritten (int64 (len b)))
  | some err => (some err, mem)

/-! ## dialer.go: the dial functions -/

/-- The closure returned by `fasthttpDialFunc(bytesRead, bytesWritten)`,
dialer.go:58; `Dial` is `net.Dial`. -/
def fasthttpDialFunc {E : Type} (Dial : String → String → net.Conn E × Option E)
    (bytesRead bytesWritten : Ptr) (address : String) (mem : Memory) :
    (Option (countingConn E) × Option E) × Memory :=
  match Dial "tcp" address with
  | (_, some err) => ((none, some err), mem)
  | (conn, none) =>
    ((some { Conn := conn, bytesRead := bytesRead, bytesWritten := bytesWritten }, none), mem)

/-- The closure returned by `httpDialContextFunc(bytesRead, bytesWritten)`,
dialer.go:77; `DialContext` is the method of the `net.Dialer`. -/
def httpDialContextFunc {E Ctx : Type}
    (DialContext : Ctx → String → String → net.Conn E × Option E)
    (bytesRead bytesWritten : Ptr) (ctx : Ctx) (network address : String) (mem : Memory) :
    (Option (countingConn E) × Option E) × Memory :=
  match DialContext ctx network address with
  | (_, some err) => ((none, some err), mem)
  | (conn, none) =>
    ((some { Conn := conn, bytesRead := bytesRead, bytesWritten := bytesWritten }, none), mem)

/-- The closure returned by `http3DialFunc(bytesRead, bytesWritten)`,
dialer.go:97; `DialAddrEarlyContext` is `quic.DialAddrEarlyContext`, and
`network` is not passed to it. -/
def http3DialFunc {E Ctx T Q : Type}
    (DialAddrEarlyContext : Ctx → String → T → Q → quic.EarlyConnection E × Option E)
    (bytesRead bytesWritten : Ptr) (ctx : Ctx) (network addr : String) (tlsCfg : T) (cfg : Q)
    (mem : Memory) : (Option (countingQuicConn E) × Option E) × Memory :=
  let _ := network
  match DialAddrEarlyContext ctx addr tlsCfg cfg with
  | (_, some err) => ((none, some err), mem)
  | (conn, none) =>
    ((some { EarlyConnection := conn, bytesRead := bytesRead, bytesWritten := bytesWritten },
      none), mem)

/-! ## client_cert.go -/

/-- Modelled from the spec: the struct `config` is declared outside the two
source files; section 6 of the specification gives the three fields that
`generateTLSConfig` reads. -/
structure config where
  certPath : String
  keyPath : String
  insecure : Bool

/-- The two fields of Go's `tls.Config` that `generateTLSConfig` sets. -/
structure tls.Config (Cert : Type) where
  InsecureSkipVerify : Bool
  Certificates : List Cert

/-- The function `readClientCert` of client_cert.go:7. `LoadX509KeyPair` is
`tls.LoadX509KeyPair`; the second component of the result lists the calls
made to it, in order. A nil slice is the empty list. -/
def readClientCert {Cert E : Type} (LoadX509KeyPair : String → String → Cert × Option E)
    (certPath keyPath : String) : (List Cert × Option E) × List (String × String) :=
  if certPath ≠ "" ∧ keyPath ≠ "" then
    match LoadX509KeyPair certPath keyPath with
    | (_, some err) => (([], some err), [(certPath, keyPath)])
    | (cert, none) => (([cert], none), [(certPath, keyPath)])
  else (([], none), [])

/-- The function `generateTLSConfig` of client_cert.go:22, with the calls
made to the key-pair loader as second component. -/
def generateTLSConfig {Cert E : Type} (LoadX509KeyPair : String → String → Cert × Option E)
    (c : config) : (Option (tls.Config Cert) × Option E) × List (String × String) :=
  match readClientCert LoadX509KeyPair c.certPath c.keyPath with
  | ((_, some err), calls) => ((none, some err), calls)
  | ((certs, none), calls) =>
    ((some { InsecureSkipVerify := c.insecure, Certificates := certs }, none), calls)

/-! ## Sequences of calls -/

/-- One `Read` after another, each on its own wrapped connection and buffer,
threading the counter memory. -/
def runReads {E : Type} (reads : List (countingConn E × List UInt8)) (mem : Memory) : Memory :=
  reads.foldl (fun m x => (x.1.Read x.2 m).2) mem

/-- The byte counts the inner connections report for a list of reads. -/
def readSizes {E : Type} (reads : List (countingConn E × List UInt8)) : List Int :=
  reads.map (fun x => (x.1.Conn.Read x.2).1)

/-- A call that moves bytes out: a stream `Write` or a QUIC `SendMessage`. -/
inductive OutCall (E : Type) where
  | Write (cc : countingConn E) (b : List UInt8)
  | SendMessage (cqc : countingQuicConn E) (b : List UInt8)

/-- The memory after one outgoing call. -/
def OutCall.run {E : Type} : OutCall E → Memory → Memory
  | .Write cc b, mem => (cc.Write b mem).2
  | .SendMessage cqc b, mem => (cqc.SendMessage b mem).2

/-- The inner call of an outgoing call returned a nil error. -/
def OutCall.succeeds {E : Type} : OutCall E → Prop
  | .Write cc b => (cc.Conn.Write b).2 = none
  | .SendMessage cqc b => cqc.EarlyConnection.SendMessage b = none

/-- The counter pair an outgoing call's wrapper holds. -/
def OutCall.counters {E : Type} : OutCall E → Ptr × Ptr
  | .Write cc _ => (cc.bytesRead, cc.bytesWritten)
  | .SendMessage cqc _ => (cqc.bytesRead, cqc.bytesWritten)

/-- The byte counts `n` the inner connections report for the `Write` calls of
a list of outgoing calls. -/
def writeSizes {E : Type} : List (OutCall E) → List Int
  | [] => []
  | .Write cc b :: cs => (cc.Conn.Write b).1 :: writeSizes cs
  | .SendMessage _ _ :: cs => writeSizes cs

/-- The lengths `len(b)` of the arguments of the `SendMessage` calls of a
list of outgoing calls. -/
def sendSizes {E : Type} : List (OutCall E) → List Int
  | [] => []
  | .Write _ _ :: cs => sendSizes cs
  | .SendMessage _ b :: cs => len b :: sendSizes cs

/-- One outgoing call after another, threading the counter memory. -/
def runOut {E : Type} (calls : List (OutCall E)) (mem : Memory) : Memory :=
  calls.foldl (fun m c => c.run m) mem

/-! ## Concrete values -/

/-- A counter memory: cell 0 holds 10, cell 1 holds 20, every other cell 0. -/
def sampleMem : Memory := fun p => if p = 0 then 10 else if p = 1 then 20 else 0

/-- A counter memory with every cell 0. -/
def zeroMem : Memory := fun _ => 0

/-- A counter memory whose cell 0 holds the largest `int64`. -/
def fullMem : Memory := fun p => if p = 0 then 9223372036854775807 else 0

/-- A five-byte buffer. -/
def sampleBuf : List UInt8 := [104, 101, 108, 108, 111]

/-- An inner stream connection whose `Read` delivers 3 bytes whatever the
buffer, and whose `Write` takes the whole buffer. -/
def okConn : net.Conn String :=
  { Read := fun _ => (3, none), Write := fun b => (len b, none) }

/-- An inner stream connection whose calls move some bytes and then fail. -/
def brokenConn : net.Conn String :=
  { Read := fun _ => (2, some "connection reset"), Write := fun _ => (1, some "broken pipe") }

/-- An inner stream connection whose `Read` delivers `n` bytes and whose
`Write` takes `n` bytes. -/
def sizedConn (n : Int) : net.Conn String :=
  { Read := fun _ => (n, none), Write := fun _ => (n, none) }

/-- An inner QUIC connection that receives `sampleBuf` and sends anything. -/
def okQuic : quic.EarlyConnection String :=
  { ReceiveMessage := fun _ => (sampleBuf, none), SendMessage := fun _ => none }

/-- An inner QUIC connection whose calls fail. -/
def brokenQuic : quic.EarlyConnection String :=
  { ReceiveMessage := fun _ => ([1, 2], some "timeout"), SendMessage := fun _ => some "closed" }

/-- A key-pair loader that accepts every pair of paths: the certificate is
the two paths joined. -/
def okLoader : String → String → String × Option String :=
  fun certPath keyPath => (certPath ++ "+" ++ keyPath, none)

/-- A key-pair loader that rejects every pair of paths. -/
def badLoader : String → String → String × Option String :=
  fun _ _ => ("", some "failed to find any PEM data")

/-- A `net.Dial` that reaches one address only. -/
def sampleDial : String → String → net.Conn String × Option String :=
  fun _ address =>
    if address = "127.0.0.1:80" then (okConn, none) else (brokenConn, some "connection refused")

/-- A `DialContext` over a context that is either cancelled (`true`) or not. -/
def sampleDialContext : Bool → String → String → net.Conn String × Option String :=
  fun cancelled _ _ =>
    if cancelled then (brokenConn, some "context canceled") else (okConn, none)

/-- A `quic.DialAddrEarlyContext` over a context that is either cancelled
(`true`) or not; the two configurations are of type `Unit`. -/
def sampleDialQuic : Bool → String → Unit → Unit → quic.EarlyConnection String × Option String :=
  fun cancelled _ _ _ =>
    if cancelled then (brokenQuic, some "context deadline exceeded") else (okQuic, none)

/-- A 512-byte buffer. -/
def bigBuf : List UInt8 := List.replicate 512 0

/-- Two reads, of 100 and of 250 bytes, on two wrapped connections that
share the counter pair at cells 0 and 1. -/
def twoReads : List (countingConn String × List UInt8) :=
  [(⟨sizedConn 100, 0, 1⟩, bigBuf), (⟨sizedConn 250, 0, 1⟩, bigBuf)]

/-- A seven-byte buffer. -/
def sevenBuf : List UInt8 := [1, 2, 3, 4, 5, 6, 7]

/-- A stream write of the 7 bytes of `sevenBuf`, a QUIC send of the 5 bytes
of `sampleBuf` and a stream write of the same 5 bytes, on wrappers that
share the counter pair at cells 0 and 1. -/
def threeOut : List (OutCall String) :=
  [.Write ⟨okConn, 0, 1⟩ sevenBuf, .SendMessage ⟨okQuic, 0, 1⟩ sampleBuf,
   .Write ⟨okConn, 0, 1⟩ sampleBuf]

/-- An inner stream connection that breaks the contract of `io.Reader`: its
`Read` reports a negative byte count with a nil error. -/
def negativeConn : net.Conn String :=
  { Read := fun _ => (-4, none), Write := fun _ => (-4, none) }

/-! ## Arithmetic of int64 -/

theorem wrapInt64_of_isInt64 (x : Int) (h : isInt64 x) : wrapInt64 x = x := by
  unfold isInt64 minInt64 maxInt64 at h
  unfold wrapInt64
  omega

theorem wrapInt64_add_wrapInt64 (a b : Int) : wrapInt64 (a + wrapInt64 b) = wrapInt64 (a + b) := by
  unfold wrapInt64
  omega

theorem wrapInt64_wrapInt64_add (a b : Int) : wrapInt64 (wrapInt64 a + b) = wrapInt64 (a + b) := by
  unfold wrapInt64
  omega

theorem isInt64_wrapInt64 (x : Int) : isInt64 (wrapInt64 x) := by
  unfold isInt64 minInt64 maxInt64 wrapInt64
  omega

theorem AddInt64_same (mem : Memory) (addr : Ptr) (delta : Int) :
    atomic.AddInt64 mem addr delta addr = wrapInt64 (mem addr + delta) := by
  simp [atomic.AddInt64]

theorem AddInt64_other (mem : Memory) (addr p : Ptr) (delta : Int) (h : p ≠ addr) :
    atomic.AddInt64 mem addr delta p = mem p := by
  simp [atomic.AddInt64, h]

/-! ## The wrapped connections, one call -/

/-- C1: when the inner `Read` returns `(n, nil)`, `countingConn.Read` returns
`(n, nil)`, leaves `bytesRead` at its previous value plus `n` (the `int64`
sum, which is the exact sum whenever that fits in an `int64`), for any `n`
and any buffer (so also for a partial read), and leaves `bytesWritten`, the
other cell of the pair, unchanged. -/
theorem countingConn_Read_success {E : Type} (cc : countingConn E) (b : List UInt8)
    (mem : Memory) (n : Int) (hinner : cc.Conn.Read b = (n, none))
    (hpair : cc.bytesRead ≠ cc.bytesWritten) :
    (cc.Read b mem).1 = (n, none) ∧
    (cc.Read b mem).2 cc.bytesRead = wrapInt64 (mem cc.bytesRead + n) ∧
    (isInt64 (mem cc.bytesRead + n) → (cc.Read b mem).2 cc.bytesRead = mem cc.bytesRead + n) ∧
    (cc.Read b mem).2 cc.bytesWritten = mem cc.bytesWritten := by
  have hrun : cc.Read b mem = ((n, none), atomic.AddInt64 mem cc.bytesRead (int64 n)) := by
    simp [countingConn.Read, hinner]
  have hval : (cc.Read b mem).2 cc.bytesRead = wrapInt64 (mem cc.bytesRead + n) := by
    rw [hrun]
    simp only [AddInt64_same, int64, wrapInt64_add_wrapInt64]
  refine ⟨by rw [hrun], hval, ?_, ?_⟩
  · intro hfit
    rw [hval, wrapInt64_of_isInt64 _ hfit]
  · rw [hrun]
    exact AddInt64_other mem cc.bytesRead cc.bytesWritten _ (Ne.symm hpair)

/-- Witness of C1: a partial read of 3 bytes into a 5-byte buffer, with
`bytesRead` at cell 0 (holding 10) and `bytesWritten` at cell 1. -/
theorem countingConn_Read_success_witness :
    (okConn.Read sampleBuf = (3, none) ∧ (0 : Ptr) ≠ 1 ∧ (3 : Int) < len sampleBuf) ∧
    ((countingConn.Read ⟨okConn, 0, 1⟩ sampleBuf sampleMem).1 = (3, none) ∧
     (countingConn.Read ⟨okConn, 0, 1⟩ sampleBuf sampleMem).2 0 = wrapInt64 (sampleMem 0 + 3) ∧
     (isInt64 (sampleMem 0 + 3) →
       (countingConn.Read ⟨okConn, 0, 1⟩ sampleBuf sampleMem).2 0 = sampleMem 0 + 3) ∧
     (countingConn.Read ⟨okConn, 0, 1⟩ sampleBuf sampleMem).2 1 = sampleMem 1) :=
  ⟨⟨rfl, by decide, by decide⟩,
   countingConn_Read_success ⟨okConn, 0, 1⟩ sampleBuf sampleMem 3 rfl (by decide)⟩

/-- C2: when the inner operation returns a non-nil error, each of `Read`,
`Write`, `ReceiveMessage` and `SendMessage` returns the inner result (byte
count or byte slice, and error) unchanged and leaves the whole counter
memory, so both `bytesRead` and `bytesWritten`, as it was; the byte count
reported with the error may be positive. -/
theorem failed_call_changes_no_counter {E : Type} :
    (∀ (cc : countingConn E) (b : List UInt8) (mem : Memory) (n : Int) (e : E),
      cc.Conn.Read b = (n, some e) → cc.Read b mem = ((n, some e), mem)) ∧
    (∀ (cc : countingConn E) (b : List UInt8) (mem : Memory) (n : Int) (e : E),
      cc.Conn.Write b = (n, some e) → cc.Write b mem = ((n, some e), mem)) ∧
    (∀ (cqc : countingQuicConn E) (mem : Memory) (m : List UInt8) (e : E),
      cqc.EarlyConnection.ReceiveMessage () = (m, some e) →
        cqc.ReceiveMessage mem = ((m, some e), mem)) ∧
    (∀ (cqc : countingQuicConn E) (b : List UInt8) (mem : Memory) (e : E),
      cqc.EarlyConnection.SendMessage b = some e → cqc.SendMessage b mem = (some e, mem)) := by
  refine ⟨?_, ?_, ?_, ?_⟩
  · intro cc b mem n e h
    simp [countingConn.Read, h]
  · intro cc b mem n e h
    simp [countingConn.Write, h]
  · intro cqc mem m e h
    simp [countingQuicConn.ReceiveMessage, h]
  · intro cqc b mem e h
    simp [countingQuicConn.SendMessage, h]

/-- Witness of C2: the four operations on failing inner connections, the
stream ones reporting 2 and 1 bytes together with the error. -/
theorem failed_call_changes_no_counter_witness :
    (brokenConn.Read sampleBuf = (2, some "connection reset") ∧
     brokenConn.Write sampleBuf = (1, some "broken pipe") ∧
     brokenQuic.ReceiveMessage () = ([1, 2], some "timeout") ∧
     brokenQuic.SendMessage sampleBuf = some "closed") ∧
    (countingConn.Read ⟨brokenConn, 0, 1⟩ sampleBuf sampleMem
        = ((2, some "connection reset"), sampleMem) ∧
     countingConn.Write ⟨brokenConn, 0, 1⟩ sampleBuf sampleMem
        = ((1, some "broken pipe"), sampleMem) ∧
     countingQuicConn.ReceiveMessage ⟨brokenQuic, 0, 1⟩ sampleMem
        = (([1, 2], some "timeout"), sampleMem) ∧
     countingQuicConn.SendMessage ⟨brokenQuic, 0, 1⟩ sampleBuf sampleMem
        = (some "closed", sampleMem)) :=
  ⟨⟨rfl, rfl, rfl, rfl⟩,
   failed_call_changes_no_counter.1 ⟨brokenConn, 0, 1⟩ sampleBuf sampleMem 2 _ rfl,
   failed_call_changes_no_counter.2.1 ⟨brokenConn, 0, 1⟩ sampleBuf sampleMem 1 _ rfl,
   failed_call_changes_no_counter.2.2.1 ⟨brokenQuic, 0, 1⟩ sampleMem [1, 2] _ rfl,
   failed_call_changes_no_counter.2.2.2 ⟨brokenQuic, 0, 1⟩ sampleBuf sampleMem _ rfl⟩

/-! ## The TLS configuration builder -/

theorem readClientCert_of_empty {Cert E : Type}
    (LoadX509KeyPair : String → String → Cert × Option E) (certPath keyPath : String)
    (h : certPath = "" ∨ keyPath = "") :
    readClientCert LoadX509KeyPair certPath keyPath = (([], none), []) := by
  unfold readClientCert
  rw [if_neg]
  rintro ⟨hc, hk⟩
  rcases h with h | h
  · exact hc h
  · exact hk h

theorem generateTLSConfig_of_empty {Cert E : Type}
    (LoadX509KeyPair : String → String → Cert × Option E) (c : config)
    (h : c.certPath = "" ∨ c.keyPath = "") :
    generateTLSConfig LoadX509KeyPair c
      = ((some { InsecureSkipVerify := c.insecure, Certificates := [] }, none), []) := by
  unfold generateTLSConfig
  rw [readClientCert_of_empty LoadX509KeyPair c.certPath c.keyPath h]

/-- C5, as the claim states it, fails: with `certPath = "client.pem"`, an
empty `keyPath` and even a loader that rejects everything,
`generateTLSConfig` returns a nil error and a usable configuration. -/
theorem generateTLSConfig_cert_without_key_succeeds :
    (config.mk "client.pem" "" false).certPath ≠ "" ∧
    (config.mk "client.pem" "" false).keyPath = "" ∧
    (generateTLSConfig badLoader (config.mk "client.pem" "" false)).1.2 = none ∧
    (generateTLSConfig badLoader (config.mk "client.pem" "" false)).1.1
      = some { InsecureSkipVerify := false, Certificates := [] } :=
  ⟨by decide, rfl, rfl, rfl⟩

/-- C5 amended: for every configuration with a non-empty `certPath` and an
empty `keyPath`, `generateTLSConfig` does not fail: it returns a nil error
and a configuration with no certificate whose skip-verification flag is
`insecure`, and it makes no call to the key-pair loader. -/
theorem generateTLSConfig_cert_without_key {Cert E : Type}
    (LoadX509KeyPair : String → String → Cert × Option E) (c : config)
    (hcert : c.certPath ≠ "") (hkey : c.keyPath = "") :
    (generateTLSConfig LoadX509KeyPair c).1.2 = none ∧
    (generateTLSConfig LoadX509KeyPair c).1.1
      = some { InsecureSkipVerify := c.insecure, Certificates := [] } ∧
    (generateTLSConfig LoadX509KeyPair c).2 = [] := by
  have _ := hcert
  rw [generateTLSConfig_of_empty LoadX509KeyPair c (Or.inr hkey)]
  exact ⟨rfl, rfl, rfl⟩

/-- Witness of C5 amended: `certPath = "client.pem"`, `keyPath = ""`,
`insecure = true`, with a loader that rejects everything. -/
theorem generateTLSConfig_cert_without_key_witness :
    ((config.mk "client.pem" "" true).certPath ≠ "" ∧
     (config.mk "client.pem" "" true).keyPath = "") ∧
    ((generateTLSConfig badLoader (config.mk "client.pem" "" true)).1.2 = none ∧
     (generateTLSConfig badLoader (config.mk "client.pem" "" true)).1.1
       = some { InsecureSkipVerify := (config.mk "client.pem" "" true).insecure,
                Certificates := [] } ∧
     (generateTLSConfig badLoader (config.mk "client.pem" "" true)).2 = []) :=
  ⟨⟨by decide, rfl⟩,
   generateTLSConfig_cert_without_key badLoader (config.mk "client.pem" "" true) (by decide) rfl⟩

/-- C6: when `certPath` or `keyPath` is empty, `generateTLSConfig` returns,
for every key-pair loader, a nil error and a configuration with zero
certificates whose skip-verification flag is `insecure`, and the list of
calls made to the loader is empty. -/
theorem generateTLSConfig_no_certificate {Cert E : Type}
    (LoadX509KeyPair : String → String → Cert × Option E) (c : config)
    (h : c.certPath = "" ∨ c.keyPath = "") :
    generateTLSConfig LoadX509KeyPair c
      = ((some { InsecureSkipVerify := c.insecure, Certificates := [] }, none), []) ∧
    (∀ cfg, (generateTLSConfig LoadX509KeyPair c).1.1 = some cfg →
      cfg.Certificates.length = 0 ∧ cfg.InsecureSkipVerify = c.insecure) := by
  rw [generateTLSConfig_of_empty LoadX509KeyPair c h]
  refine ⟨rfl, ?_⟩
  intro cfg hcfg
  simp only [Option.some.injEq] at hcfg
  subst hcfg
  exact ⟨rfl, rfl⟩

/-- Witness of C6: `certPath = ""`, `keyPath = ""`, `insecure = false` gives
zero certificates and verification enabled (skip-verification `false`). -/
theorem generateTLSConfig_no_certificate_witness :
    ((config.mk "" "" false).certPath = "" ∨ (config.mk "" "" false).keyPath = "") ∧
    (generateTLSConfig okLoader (config.mk "" "" false)
      = ((some { InsecureSkipVerify := false, Certificates := [] }, none), []) ∧
     (∀ cfg, (generateTLSConfig okLoader (config.mk "" "" false)).1.1 = some cfg →
       cfg.Certificates.length = 0 ∧ cfg.InsecureSkipVerify = false)) :=
  ⟨Or.inl rfl, generateTLSConfig_no_certificate okLoader (config.mk "" "" false) (Or.inl rfl)⟩

/-- C7: when `certPath` and `keyPath` are both non-empty, `generateTLSConfig`
calls the key-pair loader once, on those two paths. If the loader returns a
key pair, the result is a nil error and a configuration whose certificates
are exactly that key pair and whose skip-verification flag is `insecure`; if
the loader returns an error, the result is a nil configuration and that
error. -/
theorem generateTLSConfig_mirrors_loader {Cert E : Type}
    (LoadX509KeyPair : String → String → Cert × Option E) (c : config)
    (hcert : c.certPath ≠ "") (hkey : c.keyPath ≠ "") :
    (∀ cert, LoadX509KeyPair c.certPath c.keyPath = (cert, none) →
      generateTLSConfig LoadX509KeyPair c
        = ((some { InsecureSkipVerify := c.insecure, Certificates := [cert] }, none),
           [(c.certPath, c.keyPath)])) ∧
    (∀ cert e, LoadX509KeyPair c.certPath c.keyPath = (cert, some e) →
      generateTLSConfig LoadX509KeyPair c = ((none, some e), [(c.certPath, c.keyPath)])) := by
  constructor
  · intro cert hload
    simp [generateTLSConfig, readClientCert, hcert, hkey, hload]
  · intro cert e hload
    simp [generateTLSConfig, readClientCert, hcert, hkey, hload]

/-- Witness of C7: the paths `"c.pem"` and `"k.pem"`, with `insecure = true`
and a loader that succeeds, and with `insecure = false` and a loader that
fails. -/
theorem generateTLSConfig_mirrors_loader_witness :
    ((config.mk "c.pem" "k.pem" true).certPath ≠ "" ∧
     (config.mk "c.pem" "k.pem" true).keyPath ≠ "" ∧
     okLoader "c.pem" "k.pem" = ("c.pem+k.pem", none) ∧
     badLoader "c.pem" "k.pem" = ("", some "failed to find any PEM data")) ∧
    generateTLSConfig okLoader (config.mk "c.pem" "k.pem" true)
      = ((some { InsecureSkipVerify := true, Certificates := ["c.pem+k.pem"] }, none),
         [("c.pem", "k.pem")]) ∧
    generateTLSConfig okLoader (config.mk "c.pem" "k.pem" false)
      = ((some { InsecureSkipVerify := false, Certificates := ["c.pem+k.pem"] }, none),
         [("c.pem", "k.pem")]) ∧
    generateTLSConfig badLoader (config.mk "c.pem" "k.pem" false)
      = ((none, some "failed to find any PEM data"), [("c.pem", "k.pem")]) :=
  ⟨⟨by decide, by decide, by decide, rfl⟩,
   (generateTLSConfig_mirrors_loader okLoader (config.mk "c.pem" "k.pem" true)
      (by decide) (by decide)).1 "c.pem+k.pem" (by decide),
   (generateTLSConfig_mirrors_loader okLoader (config.mk "c.pem" "k.pem" false)
      (by decide) (by decide)).1 "c.pem+k.pem" (by decide),
   (generateTLSConfig_mirrors_loader badLoader (config.mk "c.pem" "k.pem" false)
      (by decide) (by decide)).2 "" _ rfl⟩

/-! ## The dial functions -/

/-- C8: each of the three dial functions, for every outcome of its dial
primitive: an error of the primitive (whatever it is, a cancelled or
expired context included) gives a nil connection and that same error; a
connection with a nil error gives a nil error and a wrapper around that
connection holding the counter pair given to the factory; in both cases
the counter memory after the dial is the memory before it. -/
theorem dial_wraps_or_propagates {E Ctx T Q : Type} :
    (∀ (Dial : String → String → net.Conn E × Option E) (bytesRead bytesWritten : Ptr)
        (address : String) (mem : Memory) (conn : net.Conn E),
      (∀ e, Dial "tcp" address = (conn, some e) →
        fasthttpDialFunc Dial bytesRead bytesWritten address mem = ((none, some e), mem)) ∧
      (Dial "tcp" address = (conn, none) →
        fasthttpDialFunc Dial bytesRead bytesWritten address mem
          = ((some { Conn := conn, bytesRead := bytesRead, bytesWritten := bytesWritten },
              none), mem))) ∧
    (∀ (DialContext : Ctx → String → String → net.Conn E × Option E)
        (bytesRead bytesWritten : Ptr) (ctx : Ctx) (network address : String) (mem : Memory)
        (conn : net.Conn E),
      (∀ e, DialContext ctx network address = (conn, some e) →
        httpDialContextFunc DialContext bytesRead bytesWritten ctx network address mem
          = ((none, some e), mem)) ∧
      (DialContext ctx network address = (conn, none) →
        httpDialContextFunc DialContext bytesRead bytesWritten ctx network address mem
          = ((some { Conn := conn, bytesRead := bytesRead, bytesWritten := bytesWritten },
              none), mem))) ∧
    (∀ (DialAddrEarlyContext : Ctx → String → T → Q → quic.EarlyConnection E × Option E)
        (bytesRead bytesWritten : Ptr) (ctx : Ctx) (network addr : String) (tlsCfg : T)
        (cfg : Q) (mem : Memory) (conn : quic.EarlyConnection E),
      (∀ e, DialAddrEarlyContext ctx addr tlsCfg cfg = (conn, some e) →
        http3DialFunc DialAddrEarlyContext bytesRead bytesWritten ctx network addr tlsCfg cfg mem
          = ((none, some e), mem)) ∧
      (DialAddrEarlyContext ctx addr tlsCfg cfg = (conn, none) →
        http3DialFunc DialAddrEarlyContext bytesRead bytesWritten ctx network addr tlsCfg cfg mem
          = ((some { EarlyConnection := conn, bytesRead := bytesRead,
                     bytesWritten := bytesWritten }, none), mem))) := by
  refine ⟨?_, ?_, ?_⟩
  · intro Dial bytesRead bytesWritten address mem conn
    constructor
    · intro e h
      simp [fasthttpDialFunc, h]
    · intro h
      simp [fasthttpDialFunc, h]
  · intro DialContext bytesRead bytesWritten ctx network address mem conn
    constructor
    · intro e h
      simp [httpDialContextFunc, h]
    · intro h
      simp [httpDialContextFunc, h]
  · intro DialAddrEarlyContext bytesRead bytesWritten ctx network addr tlsCfg cfg mem conn
    constructor
    · intro e h
      simp [http3DialFunc, h]
    · intro h
      simp [http3DialFunc, h]

/-- Witness of C8: a refused and an accepted plain dial, a cancelled and a
completed context dial, an expired and a completed QUIC dial, all with the
counter pair at cells 0 and 1. -/
theorem dial_wraps_or_propagates_witness :
    (sampleDial "tcp" "10.0.0.1:80" = (brokenConn, some "connection refused") ∧
     sampleDial "tcp" "127.0.0.1:80" = (okConn, none) ∧
     sampleDialContext true "tcp" "h:1" = (brokenConn, some "context canceled") ∧
     sampleDialContext false "tcp" "h:1" = (okConn, none) ∧
     sampleDialQuic true "h:1" () () = (brokenQuic, some "context deadline exceeded") ∧
     sampleDialQuic false "h:1" () () = (okQuic, none)) ∧
    fasthttpDialFunc sampleDial 0 1 "10.0.0.1:80" sampleMem
      = ((none, some "connection refused"), sampleMem) ∧
    fasthttpDialFunc sampleDial 0 1 "127.0.0.1:80" sampleMem
      = ((some ⟨okConn, 0, 1⟩, none), sampleMem) ∧
    httpDialContextFunc sampleDialContext 0 1 true "tcp" "h:1" sampleMem
      = ((none, some "context canceled"), sampleMem) ∧
    httpDialContextFunc sampleDialContext 0 1 false "tcp" "h:1" sampleMem
      = ((some ⟨okConn, 0, 1⟩, none), sampleMem) ∧
    http3DialFunc sampleDialQuic 0 1 true "udp" "h:1" () () sampleMem
      = ((none, some "context deadline exceeded"), sampleMem) ∧
    http3DialFunc sampleDialQuic 0 1 false "udp" "h:1" () () sampleMem
      = ((some ⟨okQuic, 0, 1⟩, none), sampleMem) :=
  ⟨⟨by simp [sampleDial], by simp [sampleDial], rfl, rfl, rfl, rfl⟩,
   ((@dial_wraps_or_propagates String Bool Unit Unit).1 sampleDial 0 1 "10.0.0.1:80" sampleMem brokenConn).1 _
     (by simp [sampleDial]),
   ((@dial_wraps_or_propagates String Bool Unit Unit).1 sampleDial 0 1 "127.0.0.1:80" sampleMem okConn).2 (by simp [sampleDial]),
   ((@dial_wraps_or_propagates String Bool Unit Unit).2.1 sampleDialContext 0 1 true "tcp" "h:1" sampleMem
     brokenConn).1 _ rfl,
   ((@dial_wraps_or_propagates String Bool Unit Unit).2.1 sampleDialContext 0 1 false "tcp" "h:1" sampleMem okConn).2 rfl,
   ((@dial_wraps_or_propagates String Bool Unit Unit).2.2 sampleDialQuic 0 1 true "udp" "h:1" () () sampleMem
     brokenQuic).1 _ rfl,
   ((@dial_wraps_or_propagates String Bool Unit Unit).2.2 sampleDialQuic 0 1 false "udp" "h:1" () () sampleMem
     okQuic).2 rfl⟩

/-! ## The wrapped connections, sequences of calls -/

theorem Read_mem_of_ok {E : Type} (cc : countingConn E) (b : List UInt8) (mem : Memory)
    (h : (cc.Conn.Read b).2 = none) :
    (cc.Read b mem).2 = atomic.AddInt64 mem cc.bytesRead (int64 (cc.Conn.Read b).1) := by
  unfold countingConn.Read
  rcases hres : cc.Conn.Read b with ⟨n, err⟩
  rw [hres] at h
  simp only at h
  subst h
  rfl

theorem Write_mem_of_ok {E : Type} (cc : countingConn E) (b : List UInt8) (mem : Memory)
    (h : (cc.Conn.Write b).2 = none) :
    (cc.Write b mem).2 = atomic.AddInt64 mem cc.bytesWritten (int64 (cc.Conn.Write b).1) := by
  unfold countingConn.Write
  rcases hres : cc.Conn.Write b with ⟨n, err⟩
  rw [hres] at h
  simp only at h
  subst h
  rfl

theorem SendMessage_mem_of_ok {E : Type} (cqc : countingQuicConn E) (b : List UInt8)
    (mem : Memory) (h : cqc.EarlyConnection.SendMessage b = none) :
    (cqc.SendMessage b mem).2 = atomic.AddInt64 mem cqc.bytesWritten (int64 (len b)) := by
  unfold countingQuicConn.SendMessage
  rw [h]

theorem runReads_cons {E : Type} (x : countingConn E × List UInt8)
    (xs : List (countingConn E × List UInt8)) (mem : Memory) :
    runReads (x :: xs) mem = runReads xs (x.1.Read x.2 mem).2 := rfl

theorem runReads_cell {E : Type} (reads : List (countingConn E × List UInt8)) (r : Ptr)
    (hshare : ∀ x ∈ reads, x.1.bytesRead = r)
    (hok : ∀ x ∈ reads, (x.1.Conn.Read x.2).2 = none) (mem : Memory)
    (hcell : isInt64 (mem r)) :
    runReads reads mem r = wrapInt64 (mem r + (readSizes reads).sum) := by
  induction reads generalizing mem with
  | nil =>
    show mem r = wrapInt64 (mem r + 0)
    rw [add_zero, wrapInt64_of_isInt64 _ hcell]
  | cons x xs ih =>
    have hx := hshare x (List.mem_cons_self x xs)
    have hxok := hok x (List.mem_cons_self x xs)
    have hstep : isInt64 ((x.1.Read x.2 mem).2 r) := by
      rw [Read_mem_of_ok _ _ _ hxok, hx, AddInt64_same]
      exact isInt64_wrapInt64 _
    rw [runReads_cons, ih (fun y hy => hshare y (List.mem_cons_of_mem x hy))
      (fun y hy => hok y (List.mem_cons_of_mem x hy)) _ hstep, Read_mem_of_ok _ _ _ hxok, hx,
      AddInt64_same, int64, wrapInt64_add_wrapInt64, wrapInt64_wrapInt64_add]
    simp [readSizes, add_assoc]

theorem readSizes_perm {E : Type} {reads reads' : List (countingConn E × List UInt8)}
    (h : reads'.Perm reads) : (readSizes reads').sum = (readSizes reads).sum :=
  (h.map _).sum_eq

/-- C3: for every list of successful reads on wrapped connections that
share the `bytesRead` counter (an `int64` cell), run one after another, the
final `bytesRead` is its initial value plus the sum of the sizes (the
`int64` sum, which is the exact sum whenever that fits in an `int64`), and
every permutation of the list ends with the same value. -/
theorem successful_reads_add_up {E : Type} (reads : List (countingConn E × List UInt8))
    (bytesRead : Ptr) (mem : Memory)
    (hcell : isInt64 (mem bytesRead))
    (hshare : ∀ x ∈ reads, x.1.bytesRead = bytesRead)
    (hok : ∀ x ∈ reads, (x.1.Conn.Read x.2).2 = none) :
    runReads reads mem bytesRead = wrapInt64 (mem bytesRead + (readSizes reads).sum) ∧
    (isInt64 (mem bytesRead + (readSizes reads).sum) →
      runReads reads mem bytesRead = mem bytesRead + (readSizes reads).sum) ∧
    (∀ reads' : List (countingConn E × List UInt8), reads'.Perm reads →
      runReads reads' mem bytesRead = runReads reads mem bytesRead) := by
  have hval := runReads_cell reads bytesRead hshare hok mem hcell
  refine ⟨hval, ?_, ?_⟩
  · intro hfit
    rw [hval, wrapInt64_of_isInt64 _ hfit]
  · intro reads' hperm
    rw [hval, runReads_cell reads' bytesRead (fun x hx => hshare x (hperm.mem_iff.mp hx))
      (fun x hx => hok x (hperm.mem_iff.mp hx)) mem hcell, readSizes_perm hperm]

/-- Witness of C3: reads of 100 and 250 bytes, starting from 0, leave
`bytesRead` at exactly 350, in this order and in the other one. -/
theorem successful_reads_add_up_witness :
    (isInt64 (zeroMem 0) ∧ (∀ x ∈ twoReads, x.1.bytesRead = 0) ∧
     (∀ x ∈ twoReads, (x.1.Conn.Read x.2).2 = none) ∧ readSizes twoReads = [100, 250]) ∧
    runReads twoReads zeroMem 0 = 350 ∧ runReads twoReads.reverse zeroMem 0 = 350 := by
  have hcell : isInt64 (zeroMem 0) := by decide
  have hshare : ∀ x ∈ twoReads, x.1.bytesRead = 0 := by simp [twoReads]
  have hok : ∀ x ∈ twoReads, (x.1.Conn.Read x.2).2 = none := by simp [twoReads, sizedConn]
  have h := successful_reads_add_up twoReads 0 zeroMem hcell hshare hok
  exact ⟨⟨hcell, hshare, hok, rfl⟩, h.1.trans (by decide),
    (h.2.2 _ (List.reverse_perm _)).trans (h.1.trans (by decide))⟩

theorem runOut_cons {E : Type} (c : OutCall E) (cs : List (OutCall E)) (mem : Memory) :
    runOut (c :: cs) mem = runOut cs (c.run mem) := rfl

theorem OutCall_run_written {E : Type} (c : OutCall E) (r w : Ptr) (mem : Memory)
    (hshare : c.counters = (r, w)) (hok : c.succeeds) :
    c.run mem w = wrapInt64 (mem w + ((writeSizes [c]).sum + (sendSizes [c]).sum)) := by
  cases c with
  | Write cc b =>
    have hw : cc.bytesWritten = w := congrArg Prod.snd hshare
    show (cc.Write b mem).2 w = _
    rw [Write_mem_of_ok cc b mem hok, hw, AddInt64_same, int64, wrapInt64_add_wrapInt64]
    simp [writeSizes, sendSizes]
  | SendMessage cqc b =>
    have hw : cqc.bytesWritten = w := congrArg Prod.snd hshare
    show (cqc.SendMessage b mem).2 w = _
    rw [SendMessage_mem_of_ok cqc b mem hok, hw, AddInt64_same, int64, wrapInt64_add_wrapInt64]
    simp [writeSizes, sendSizes]

theorem OutCall_run_other {E : Type} (c : OutCall E) (r w p : Ptr) (mem : Memory)
    (hshare : c.counters = (r, w)) (hok : c.succeeds) (hp : p ≠ w) :
    c.run mem p = mem p := by
  cases c with
  | Write cc b =>
    have hw : cc.bytesWritten = w := congrArg Prod.snd hshare
    show (cc.Write b mem).2 p = _
    rw [Write_mem_of_ok cc b mem hok, hw, AddInt64_other _ _ _ _ hp]
  | SendMessage cqc b =>
    have hw : cqc.bytesWritten = w := congrArg Prod.snd hshare
    show (cqc.SendMessage b mem).2 p = _
    rw [SendMessage_mem_of_ok cqc b mem hok, hw, AddInt64_other _ _ _ _ hp]

theorem sizes_cons {E : Type} (c : OutCall E) (cs : List (OutCall E)) :
    (writeSizes (c :: cs)).sum + (sendSizes (c :: cs)).sum
      = ((writeSizes [c]).sum + (sendSizes [c]).sum)
        + ((writeSizes cs).sum + (sendSizes cs).sum) := by
  cases c <;> simp [writeSizes, sendSizes] <;> ring

theorem runOut_written {E : Type} (calls : List (OutCall E)) (r w : Ptr)
    (hshare : ∀ c ∈ calls, c.counters = (r, w)) (hok : ∀ c ∈ calls, c.succeeds)
    (mem : Memory) (hcell : isInt64 (mem w)) :
    runOut calls mem w = wrapInt64 (mem w + ((writeSizes calls).sum + (sendSizes calls).sum)) := by
  induction calls generalizing mem with
  | nil =>
    show mem w = wrapInt64 (mem w + (0 + 0))
    rw [add_zero, add_zero, wrapInt64_of_isInt64 _ hcell]
  | cons c cs ih =>
    have hc := OutCall_run_written c r w mem (hshare c (List.mem_cons_self c cs))
      (hok c (List.mem_cons_self c cs))
    have hstep : isInt64 (c.run mem w) := by
      rw [hc]
      exact isInt64_wrapInt64 _
    rw [runOut_cons, ih (fun y hy => hshare y (List.mem_cons_of_mem c hy))
      (fun y hy => hok y (List.mem_cons_of_mem c hy)) _ hstep, hc, wrapInt64_wrapInt64_add,
      sizes_cons c cs, add_assoc]

theorem runOut_other {E : Type} (calls : List (OutCall E)) (r w p : Ptr)
    (hshare : ∀ c ∈ calls, c.counters = (r, w)) (hok : ∀ c ∈ calls, c.succeeds)
    (hp : p ≠ w) (mem : Memory) : runOut calls mem p = mem p := by
  induction calls generalizing mem with
  | nil => rfl
  | cons c cs ih =>
    rw [runOut_cons, ih (fun y hy => hshare y (List.mem_cons_of_mem c hy))
      (fun y hy => hok y (List.mem_cons_of_mem c hy)),
      OutCall_run_other c r w p mem (hshare c (List.mem_cons_self c cs))
        (hok c (List.mem_cons_self c cs)) hp]

/-- C4: for every list of successful stream `Write` calls and successful
QUIC `SendMessage` calls on wrappers that share one counter pair (two
distinct `int64` cells), run one after another, the final `bytesWritten` is
its initial value plus the sum of the inner `n` of the writes plus the sum
of the full `len(b)` of the sends (the `int64` sum, which is the exact sum
whenever that fits in an `int64`), and `bytesRead` is unchanged. -/
theorem successful_writes_and_sends_add_up {E : Type} (calls : List (OutCall E))
    (bytesRead bytesWritten : Ptr) (mem : Memory)
    (hpair : bytesRead ≠ bytesWritten)
    (hcell : isInt64 (mem bytesWritten))
    (hshare : ∀ c ∈ calls, c.counters = (bytesRead, bytesWritten))
    (hok : ∀ c ∈ calls, c.succeeds) :
    runOut calls mem bytesWritten
      = wrapInt64 (mem bytesWritten + ((writeSizes calls).sum + (sendSizes calls).sum)) ∧
    (isInt64 (mem bytesWritten + ((writeSizes calls).sum + (sendSizes calls).sum)) →
      runOut calls mem bytesWritten
        = mem bytesWritten + ((writeSizes calls).sum + (sendSizes calls).sum)) ∧
    runOut calls mem bytesRead = mem bytesRead := by
  have hval := runOut_written calls bytesRead bytesWritten hshare hok mem hcell
  refine ⟨hval, ?_, runOut_other calls bytesRead bytesWritten bytesRead hshare hok hpair mem⟩
  intro hfit
  rw [hval, wrapInt64_of_isInt64 _ hfit]

/-- Witness of C4: a write of 7 bytes, a send of 5 bytes and a write of 5
bytes move `bytesWritten` from 20 to 37 and leave `bytesRead` at 10. -/
theorem successful_writes_and_sends_add_up_witness :
    ((0 : Ptr) ≠ 1 ∧ isInt64 (sampleMem 1) ∧ (∀ c ∈ threeOut, c.counters = (0, 1)) ∧
     (∀ c ∈ threeOut, c.succeeds) ∧ writeSizes threeOut = [7, 5] ∧ sendSizes threeOut = [5]) ∧
    runOut threeOut sampleMem 1 = 37 ∧ runOut threeOut sampleMem 0 = 10 := by
  have hcell : isInt64 (sampleMem 1) := by decide
  have hshare : ∀ c ∈ threeOut, c.counters = (0, 1) := by simp [threeOut, OutCall.counters]
  have hok : ∀ c ∈ threeOut, c.succeeds := by
    simp [threeOut, OutCall.succeeds, sizedConn, okConn, okQuic]
  have h := successful_writes_and_sends_add_up threeOut 0 1 sampleMem (by decide) hcell hshare hok
  exact ⟨⟨by decide, hcell, hshare, hok, rfl, rfl⟩, h.1.trans (by decide), h.2.2.trans (by decide)⟩

/-! ## Monotonicity of the counters -/

theorem AddInt64_mono (mem : Memory) (addr : Ptr) (d : Int) (hcell : isInt64 (mem addr))
    (hd : 0 ≤ d) (hfit : mem addr + d ≤ maxInt64) (p : Ptr) :
    mem p ≤ atomic.AddInt64 mem addr (int64 d) p := by
  by_cases hp : p = addr
  · subst hp
    rw [AddInt64_same, int64, wrapInt64_add_wrapInt64, wrapInt64_of_isInt64]
    · omega
    · exact ⟨le_trans hcell.1 (by omega), hfit⟩
  · rw [AddInt64_other _ _ _ _ hp]

/-- C9, as the claim states it, fails: with `bytesRead` at the largest
`int64`, a successful `Read` of 3 bytes leaves it at
`-9223372036854775806`, less than before; and a successful inner `Read`
that reports `-4` moves `bytesRead` from 10 to 6. -/
theorem countingConn_Read_can_decrease_bytesRead :
    (okConn.Read sampleBuf = (3, none) ∧ isInt64 (fullMem 0) ∧
     (countingConn.Read ⟨okConn, 0, 1⟩ sampleBuf fullMem).2 0 = -9223372036854775806 ∧
     (countingConn.Read ⟨okConn, 0, 1⟩ sampleBuf fullMem).2 0 < fullMem 0) ∧
    (negativeConn.Read sampleBuf = (-4, none) ∧ sampleMem 0 = 10 ∧
     (countingConn.Read ⟨negativeConn, 0, 1⟩ sampleBuf sampleMem).2 0 = 6) :=
  ⟨⟨rfl, by decide, by decide, by decide⟩, rfl, rfl, by decide⟩

/-- C9 amended: for every call of `Read`, `Write`, `ReceiveMessage` or
`SendMessage` in which the counter the call may update holds an `int64`,
and the inner operation either fails or succeeds with a byte count that is
not negative and that the counter can take without exceeding the largest
`int64`, the values of `bytesRead` and of `bytesWritten` after the call are
not less than before it. -/
theorem counters_monotone_without_overflow {E : Type} :
    (∀ (cc : countingConn E) (b : List UInt8) (mem : Memory),
      isInt64 (mem cc.bytesRead) →
      ((cc.Conn.Read b).2 = none →
        0 ≤ (cc.Conn.Read b).1 ∧ mem cc.bytesRead + (cc.Conn.Read b).1 ≤ maxInt64) →
      mem cc.bytesRead ≤ (cc.Read b mem).2 cc.bytesRead ∧
      mem cc.bytesWritten ≤ (cc.Read b mem).2 cc.bytesWritten) ∧
    (∀ (cc : countingConn E) (b : List UInt8) (mem : Memory),
      isInt64 (mem cc.bytesWritten) →
      ((cc.Conn.Write b).2 = none →
        0 ≤ (cc.Conn.Write b).1 ∧ mem cc.bytesWritten + (cc.Conn.Write b).1 ≤ maxInt64) →
      mem cc.bytesRead ≤ (cc.Write b mem).2 cc.bytesRead ∧
      mem cc.bytesWritten ≤ (cc.Write b mem).2 cc.bytesWritten) ∧
    (∀ (cqc : countingQuicConn E) (mem : Memory),
      isInt64 (mem cqc.bytesRead) →
      ((cqc.EarlyConnection.ReceiveMessage ()).2 = none →
        mem cqc.bytesRead + len (cqc.EarlyConnection.ReceiveMessage ()).1 ≤ maxInt64) →
      mem cqc.bytesRead ≤ (cqc.ReceiveMessage mem).2 cqc.bytesRead ∧
      mem cqc.bytesWritten ≤ (cqc.ReceiveMessage mem).2 cqc.bytesWritten) ∧
    (∀ (cqc : countingQuicConn E) (b : List UInt8) (mem : Memory),
      isInt64 (mem cqc.bytesWritten) →
      (cqc.EarlyConnection.SendMessage b = none → mem cqc.bytesWritten + len b ≤ maxInt64) →
      mem cqc.bytesRead ≤ (cqc.SendMessage b mem).2 cqc.bytesRead ∧
      mem cqc.bytesWritten ≤ (cqc.SendMessage b mem).2 cqc.bytesWritten) := by
  have hlen : ∀ b : List UInt8, 0 ≤ len b := fun b => Int.ofNat_nonneg b.length
  refine ⟨?_, ?_, ?_, ?_⟩
  · intro cc b mem hcell hfit
    have hall : ∀ p, mem p ≤ (cc.Read b mem).2 p := by
      intro p
      unfold countingConn.Read
      rcases hres : cc.Conn.Read b with ⟨n, err⟩
      rw [hres] at hfit
      cases err with
      | none => exact AddInt64_mono mem _ n hcell (hfit rfl).1 (hfit rfl).2 p
      | some e => exact le_refl _
    exact ⟨hall _, hall _⟩
  · intro cc b mem hcell hfit
    have hall : ∀ p, mem p ≤ (cc.Write b mem).2 p := by
      intro p
      unfold countingConn.Write
      rcases hres : cc.Conn.Write b with ⟨n, err⟩
      rw [hres] at hfit
      cases err with
      | none => exact AddInt64_mono mem _ n hcell (hfit rfl).1 (hfit rfl).2 p
      | some e => exact le_refl _
    exact ⟨hall _, hall _⟩
  · intro cqc mem hcell hfit
    have hall : ∀ p, mem p ≤ (cqc.ReceiveMessage mem).2 p := by
      intro p
      unfold countingQuicConn.ReceiveMessage
      rcases hres : cqc.EarlyConnection.ReceiveMessage () with ⟨m, err⟩
      rw [hres] at hfit
      cases err with
      | none => exact AddInt64_mono mem _ (len m) hcell (hlen m) (hfit rfl) p
      | some e => exact le_refl _
    exact ⟨hall _, hall _⟩
  · intro cqc b mem hcell hfit
    have hall : ∀ p, mem p ≤ (cqc.SendMessage b mem).2 p := by
      intro p
      unfold countingQuicConn.SendMessage
      cases hres : cqc.EarlyConnection.SendMessage b with
      | none => exact AddInt64_mono mem _ (len b) hcell (hlen b) (hfit hres) p
      | some e => exact le_refl _
    exact ⟨hall _, hall _⟩

/-- Witness of C9 amended: a successful read of 3 bytes with `bytesRead` at
10, a failed write, a successful receive of 5 bytes and a successful send
of 5 bytes with `bytesWritten` at 20. -/
theorem counters_monotone_without_overflow_witness :
    (isInt64 (sampleMem 0) ∧ isInt64 (sampleMem 1) ∧
     okConn.Read sampleBuf = (3, none) ∧ sampleMem 0 + 3 ≤ maxInt64 ∧
     brokenConn.Write sampleBuf = (1, some "broken pipe") ∧
     okQuic.ReceiveMessage () = (sampleBuf, none) ∧ sampleMem 0 + len sampleBuf ≤ maxInt64 ∧
     okQuic.SendMessage sampleBuf = none ∧ sampleMem 1 + len sampleBuf ≤ maxInt64) ∧
    (sampleMem 0 ≤ (countingConn.Read ⟨okConn, 0, 1⟩ sampleBuf sampleMem).2 0 ∧
     sampleMem 1 ≤ (countingConn.Read ⟨okConn, 0, 1⟩ sampleBuf sampleMem).2 1) ∧
    (sampleMem 0 ≤ (countingConn.Write ⟨brokenConn, 0, 1⟩ sampleBuf sampleMem).2 0 ∧
     sampleMem 1 ≤ (countingConn.Write ⟨brokenConn, 0, 1⟩ sampleBuf sampleMem).2 1) ∧
    (sampleMem 0 ≤ (countingQuicConn.ReceiveMessage ⟨okQuic, 0, 1⟩ sampleMem).2 0 ∧
     sampleMem 1 ≤ (countingQuicConn.ReceiveMessage ⟨okQuic, 0, 1⟩ sampleMem).2 1) ∧
    (sampleMem 0 ≤ (countingQuicConn.SendMessage ⟨okQuic, 0, 1⟩ sampleBuf sampleMem).2 0 ∧
     sampleMem 1 ≤ (countingQuicConn.SendMessage ⟨okQuic, 0, 1⟩ sampleBuf sampleMem).2 1) :=
  ⟨⟨by decide, by decide, rfl, by decide, rfl, rfl, by decide, rfl, by decide⟩,
   (@counters_monotone_without_overflow String).1 ⟨okConn, 0, 1⟩ sampleBuf sampleMem
     (by decide) (fun _ => ⟨by decide, by decide⟩),
   (@counters_monotone_without_overflow String).2.1 ⟨brokenConn, 0, 1⟩ sampleBuf sampleMem
     (by decide) (fun h => absurd h (by simp [brokenConn])),
   (@counters_monotone_without_overflow String).2.2.1 ⟨okQuic, 0, 1⟩ sampleMem
     (by decide) (fun _ => by decide),
   (@counters_monotone_without_overflow String).2.2.2 ⟨okQuic, 0, 1⟩ sampleBuf sampleMem
     (by decide) (fun _ => by decide)⟩
